import Mathlib

/-!
Verification of the CHIP-8 emulator front end (`chip_8_lib/src/disassembler.rs`
and `chip_8_wasm/crate/src/lib.rs`) against its specification.

The Rust code is shallowly embedded: `u16`/`u8` values become `Nat` with the
wraparound made explicit where it matters, `String` formatting becomes Lean
`String` operations, the global `CPU` state becomes an explicit `Cpu`
structure, and the fallible array indexing in `key_down`/`key_up` becomes an
`Option`-returning function (with `none` for an out-of-bounds panic).
-/

namespace Chip8

/-- Uppercase hexadecimal digit character for a value `0 ≤ n ≤ 15`,
mirroring the digits produced by Rust's `{:X}` format specifier. -/
def hexDigit : Nat → Char
  | 0 => '0'
  | 1 => '1'
  | 2 => '2'
  | 3 => '3'
  | 4 => '4'
  | 5 => '5'
  | 6 => '6'
  | 7 => '7'
  | 8 => '8'
  | 9 => '9'
  | 10 => 'A'
  | 11 => 'B'
  | 12 => 'C'
  | 13 => 'D'
  | 14 => 'E'
  | _ => 'F'

/-- Fuel-driven most-significant-first hexadecimal digit list of `n`
(empty for `n = 0`); the fuel is an upper bound on `n`, so structural
recursion suffices and the definition reduces in the kernel. -/
def hexCharsAux : Nat → Nat → List Char
  | 0, _ => []
  | fuel + 1, n =>
    if n = 0 then [] else hexCharsAux fuel (n / 16) ++ [hexDigit (n % 16)]

/-- Hexadecimal digit list of `n`, most significant digit first. -/
def hexChars (n : Nat) : List Char := hexCharsAux n n

/-- Uppercase, no-leading-zero hexadecimal rendering of `n`, mirroring
Rust's `{:X}` format specifier (which prints `0` as `"0"`). -/
def toHexUpper (n : Nat) : String :=
  if n = 0 then "0" else String.mk (hexChars n)

/-- Shallow embedding of `disassemble` from `chip_8_lib/src/disassembler.rs`.
The Rust `match` on inclusive `u16` ranges becomes a chain of upper-bound
tests (the scrutinee is a `u16`, so each range check reduces to its upper
bound once the earlier ranges are excluded); `&` is `&&&`, `>>` is `>>>`,
`format!` with `{}` on an integer is decimal `Nat.repr`, `{:X}` is
`toHexUpper`, and the escaped `\x7b\x7b`/`\x7d\x7d` in the Rust format
string is a literal brace in the output. -/
def disassemble (opcode : Nat) : String :=
  if opcode ≤ 0x0FFF then
    let subcode := opcode &&& 0x00FF
    if subcode = 0x00E0 then "CLS"
    else if subcode = 0x00EE then "RET"
    else ""
  else if opcode ≤ 0x1FFF then
    let address := opcode &&& 0x0FFF
    "JP 0x" ++ toHexUpper address
  else if opcode ≤ 0x2FFF then
    let address := opcode &&& 0x0FFF
    "CALL 0x" ++ toHexUpper address
  else if opcode ≤ 0x3FFF then
    let x := (opcode &&& 0x0F00) >>> 8
    let kk := opcode &&& 0x00FF
    "SE V" ++ Nat.repr x ++ " " ++ Nat.repr kk
  else if opcode ≤ 0x4FFF then
    let x := (opcode &&& 0x0F00) >>> 8
    let kk := opcode &&& 0x00FF
    "SNE V" ++ Nat.repr x ++ " " ++ Nat.repr kk
  else if opcode ≤ 0x5FFF then
    let x := (opcode &&& 0x0F00) >>> 8
    let y := (opcode &&& 0x00F0) >>> 4
    "SE V" ++ Nat.repr x ++ " V" ++ Nat.repr y
  else if opcode ≤ 0x6FFF then
    let x := (opcode &&& 0x0F00) >>> 8
    let kk := opcode &&& 0x00FF
    "LD V" ++ Nat.repr x ++ " " ++ Nat.repr kk
  else if opcode ≤ 0x7FFF then
    let x := (opcode &&& 0x0F00) >>> 8
    "ADD V" ++ Nat.repr x ++ " " ++ Nat.repr (opcode &&& 0x00FF)
  else if opcode ≤ 0x8FFF then
    let x := (opcode &&& 0x0F00) >>> 8
    let y := (opcode &&& 0x00F0) >>> 4
    let subcode := opcode &&& 0x000F
    if subcode = 0 then "LD V" ++ Nat.repr x ++ " V" ++ Nat.repr y
    else if subcode = 1 then "OR V" ++ Nat.repr x ++ " V" ++ Nat.repr y
    else if subcode = 2 then "AND V" ++ Nat.repr x ++ " V" ++ Nat.repr y
    else if subcode = 3 then "XOR V" ++ Nat.repr x ++ " V" ++ Nat.repr y
    else if subcode = 4 then "ADD V" ++ Nat.repr x ++ " V" ++ Nat.repr y
    else if subcode = 5 then "SUB V" ++ Nat.repr x ++ " V" ++ Nat.repr y
    else if subcode = 6 then
      "SHR V" ++ Nat.repr x ++ " \x7b, V" ++ Nat.repr y ++ "\x7d"
    else if subcode = 7 then "SUBN V" ++ Nat.repr x ++ " V" ++ Nat.repr y ++ " "
    else if subcode = 0xE then "HL V" ++ Nat.repr x ++ " V" ++ Nat.repr y ++ " "
    else "??? " ++ toHexUpper opcode
  else if opcode ≤ 0x9FFF then
    let x := (opcode &&& 0x0F00) >>> 8
    let y := (opcode &&& 0x00F0) >>> 4
    "SNE V" ++ Nat.repr x ++ " V" ++ Nat.repr y ++ " "
  else if opcode ≤ 0xAFFF then
    "LD I " ++ Nat.repr (opcode &&& 0x0FFF) ++ " "
  else if opcode ≤ 0xBFFF then
    let address := opcode &&& 0x0FFF
    "JP V0, " ++ Nat.repr address ++ " "
  else if opcode ≤ 0xCFFF then
    let x := (opcode &&& 0x0F00) >>> 8
    let kk := opcode &&& 0x00FF
    "RND V" ++ Nat.repr x ++ ", " ++ Nat.repr kk ++ " "
  else if opcode ≤ 0xDFFF then
    let x := (opcode &&& 0x0F00) >>> 8
    let y := (opcode &&& 0x00F0) >>> 4
    let nibble := opcode &&& 0x000F
    "DRW V" ++ Nat.repr x ++ " V" ++ Nat.repr y ++ " " ++ Nat.repr nibble ++ " "
  else if opcode ≤ 0xEFFF then
    let x := (opcode &&& 0x0F00) >>> 8
    let code := opcode &&& 0x00FF
    if code = 0x9E then "SKP V" ++ Nat.repr x ++ " "
    else if code = 0xA1 then "SKNP V" ++ Nat.repr x
    else "??? " ++ toHexUpper opcode
  else
    let x := (opcode &&& 0x0F00) >>> 8
    let code := opcode &&& 0x00FF
    if code = 0x07 then "LD V" ++ Nat.repr x ++ ", DT"
    else if code = 0x0A then "LD V" ++ Nat.repr x ++ " K"
    else if code = 0x15 then "LD DT V" ++ Nat.repr x
    else if code = 0x18 then "LD ST V" ++ Nat.repr x
    else if code = 0x1E then "ADD I V" ++ Nat.repr x
    else if code = 0x29 then "LD F V" ++ Nat.repr x
    else if code = 0x33 then "LD B V" ++ Nat.repr x
    else if code = 0x55 then "LD [I] V" ++ Nat.repr x
    else if code = 0x65 then "LD V" ++ Nat.repr x ++ ", [I]"
    else "??? " ++ toHexUpper opcode

/-- Shallow embedding of the `Cpu` state as laid out by the `static mut CPU`
initializer in `chip_8_wasm/crate/src/lib.rs`: `memory: [u8; 4096]`,
`pc: u16`, `v: [u8; 16]`, `i: u16`, `stack: [u16; 16]`, `sp: u16`,
`display: [u8; 2048]`, `dt: u8`, `keys: [bool; 16]`.  Fixed-size arrays
become lists (well-formed states have the corresponding lengths). -/
structure Cpu where
  memory : List Nat
  pc : Nat
  v : List Nat
  i : Nat
  stack : List Nat
  sp : Nat
  display : List Nat
  dt : Nat
  keys : List Bool
  deriving DecidableEq

/-- Embedding of the memory-listing loop of `update_ui` in
`chip_8_wasm/crate/src/lib.rs`: `memory_start = CPU.pc`,
`memory_end = min (CPU.pc + 50) 4096` (the `u16` addition wraps mod 2^16
before the clamp), and for each `x` in `memory_start..memory_end` stepped
by 2 the pair `(x, opcode)` with
`opcode = (memory[x] as u16) << 8 | memory[x+1] as u16`.  The number of
loop iterations of `(a..b).step_by(2)` is `(b - a + 1) / 2` in truncated
`Nat` subtraction. -/
def updateUiOpcodes (cpu : Cpu) : List (Nat × Nat) :=
  let memoryStart := cpu.pc
  let memoryEndRaw := (cpu.pc + 50) % 65536
  let memoryEnd := if 4096 ≤ memoryEndRaw then 4096 else memoryEndRaw
  (List.range' memoryStart ((memoryEnd - memoryStart + 1) / 2) 2).map fun x =>
    let code1 := cpu.memory.getD x 0
    let code2 := cpu.memory.getD (x + 1) 0
    (x, (code1 <<< 8) ||| code2)

/-- Embedding of the `<li>` lines that `update_ui` writes into the
`memorylist` element: `format!("<li>0x\x7b:X\x7d - \x7b\x7d</li>", x, disassemble(opcode))`
for each pair produced by the listing loop. -/
def updateUiLines (cpu : Cpu) : List String :=
  (updateUiOpcodes cpu).map fun p =>
    "<li>0x" ++ toHexUpper p.1 ++ " - " ++ disassemble p.2 ++ "</li>"

/-- Model of an `f64` value as passed to `key_down`/`key_up`: either NaN,
an infinity, or a finite value (every finite IEEE double is a rational
number, represented exactly). -/
inductive F64 where
  | nan : F64
  | posInf : F64
  | negInf : F64
  | finite : ℚ → F64

/-- The largest `usize` value on the `wasm32` target (2^32 - 1). -/
def usizeMax : Nat := 4294967295

/-- Rust's saturating `as usize` cast on an `f64`: NaN goes to 0, values
below 0 (including negative infinity) saturate to 0, values above
`usize::MAX` (including positive infinity) saturate to `usize::MAX`, and
finite in-range values truncate toward zero (which on nonnegative values
is the floor). -/
def f64AsUsize : F64 → Nat
  | .nan => 0
  | .negInf => 0
  | .posInf => usizeMax
  | .finite q => if q < 0 then 0 else min q.floor.toNat usizeMax

/-- Embedding of `key_down` from `chip_8_wasm/crate/src/lib.rs`:
`CPU.keys[key as usize] = true`.  Indexing a `[bool; 16]` panics when the
index is out of bounds; the panic is modelled as `none`. -/
def key_down (cpu : Cpu) (key : F64) : Option Cpu :=
  let idx := f64AsUsize key
  if idx < cpu.keys.length then some { cpu with keys := cpu.keys.set idx true }
  else none

/-- Embedding of `key_up` from `chip_8_wasm/crate/src/lib.rs`:
`CPU.keys[key as usize] = false`, with the out-of-bounds panic as `none`. -/
def key_up (cpu : Cpu) (key : F64) : Option Cpu :=
  let idx := f64AsUsize key
  if idx < cpu.keys.length then some { cpu with keys := cpu.keys.set idx false }
  else none

/-- Error value returned by the engine's step, carrying the message the
wasm wrapper logs (`e.message` in `chip_8_wasm/crate/src/lib.rs`). -/
structure EmulateError where
  message : String

/-- Embedding of the `emulate_cycle` wasm wrapper from
`chip_8_wasm/crate/src/lib.rs`.  The engine step `CPU.emulate_cycle()`
lives in `chip_8_lib/src/cpu.rs` and is abstracted as a function
`step : Cpu → Cpu × Option EmulateError` returning the state the engine
left behind plus an optional error.  The wrapper returns `true` on `Ok`,
and on `Err(e)` logs `e.message` to the console (modelled as the list of
console-error lines) and returns `false`; it performs no state mutation
of its own beyond the inner call. -/
def emulate_cycle (step : Cpu → Cpu × Option EmulateError) (cpu : Cpu) :
    Bool × List String × Cpu :=
  match step cpu with
  | (cpu', none) => (true, [], cpu')
  | (cpu', some e) => (false, [e.message], cpu')

/-- Purity of the disassembler made explicit: a call to `disassemble` in
any machine state returns the string computed from the opcode alone and
leaves the state untouched (the Rust function receives only the `u16`
opcode by value and references no other data). -/
def disassembleInState (cpu : Cpu) (opcode : Nat) : String × Cpu :=
  (disassemble opcode, cpu)

/-- Opcodes that fall into the catch-all arms of the `0x8`, `0xE` and `0xF`
families of `disassemble` (the encodings with no matching instruction):
an `0x8xy?` subcode other than `0`–`7`/`0xE`, an `0xEx??` low byte other
than `0x9E`/`0xA1`, or an `0xFx??` low byte other than the nine handled
codes. -/
def unknownEncoding (opcode : Nat) : Prop :=
  (0x8000 ≤ opcode ∧ opcode ≤ 0x8FFF ∧
    opcode &&& 0x000F ≠ 0 ∧ opcode &&& 0x000F ≠ 1 ∧ opcode &&& 0x000F ≠ 2 ∧
    opcode &&& 0x000F ≠ 3 ∧ opcode &&& 0x000F ≠ 4 ∧ opcode &&& 0x000F ≠ 5 ∧
    opcode &&& 0x000F ≠ 6 ∧ opcode &&& 0x000F ≠ 7 ∧ opcode &&& 0x000F ≠ 0xE) ∨
  (0xE000 ≤ opcode ∧ opcode ≤ 0xEFFF ∧
    opcode &&& 0x00FF ≠ 0x9E ∧ opcode &&& 0x00FF ≠ 0xA1) ∨
  (0xF000 ≤ opcode ∧ opcode ≤ 0xFFFF ∧
    opcode &&& 0x00FF ≠ 0x07 ∧ opcode &&& 0x00FF ≠ 0x0A ∧
    opcode &&& 0x00FF ≠ 0x15 ∧ opcode &&& 0x00FF ≠ 0x18 ∧
    opcode &&& 0x00FF ≠ 0x1E ∧ opcode &&& 0x00FF ≠ 0x29 ∧
    opcode &&& 0x00FF ≠ 0x33 ∧ opcode &&& 0x00FF ≠ 0x55 ∧
    opcode &&& 0x00FF ≠ 0x65)

/-- C1 counterexample: `disassemble` dispatches the `0x0nnn` family on the
low byte `opcode & 0x00FF` alone, so opcode `0x01E0`, which is not
`0x00E0`, already returns `"CLS"` instead of the empty string. -/
theorem disassemble_cls_not_only_00E0 :
    disassemble 0x01E0 = "CLS" ∧ (0x01E0 : Nat) ≠ 0x00E0 := by decide

set_option maxRecDepth 4000 in
/-- C1 (amended): for every opcode in `0x0000`–`0x0FFF` (written as
`256 * mid + lo` with middle nibble `mid` and low byte `lo`),
`disassemble` returns `"CLS"` exactly when the low byte of the opcode is
`0xE0`, `"RET"` exactly when the low byte is `0xEE`, and the empty
string for every other opcode of the family. -/
theorem disassemble_sys_family (mid : Fin 16) (lo : Fin 256) :
    (disassemble (256 * mid.val + lo.val) = "CLS" ↔ lo.val = 0xE0) ∧
    (disassemble (256 * mid.val + lo.val) = "RET" ↔ lo.val = 0xEE) ∧
    (lo.val ≠ 0xE0 → lo.val ≠ 0xEE →
      disassemble (256 * mid.val + lo.val) = "") := by
  revert mid lo
  decide

/-- C1 witness: the amended theorem applied at opcode `0x0123`
(middle nibble `1`, low byte `0x23`). -/
theorem disassemble_sys_family_witness :
    (0x23 : Nat) ≠ 0xE0 ∧ (0x23 : Nat) ≠ 0xEE ∧ disassemble 0x0123 = "" :=
  ⟨by decide, by decide,
    (disassemble_sys_family ⟨1, by decide⟩ ⟨0x23, by decide⟩).2.2
      (by decide) (by decide)⟩

/-- C2: every opcode that reaches a catch-all arm of the `0x8`, `0xE` or
`0xF` family is rendered as the placeholder `"??? "` followed by the
opcode in uppercase hexadecimal, so the hexadecimal value of the opcode
occurs in the returned string (`disassemble` itself is a total function
by construction, so no input can fail). -/
theorem disassemble_unknown_placeholder (opcode : Nat)
    (h : unknownEncoding opcode) :
    disassemble opcode = "??? " ++ toHexUpper opcode ∧
    (toHexUpper opcode).data <:+ (disassemble opcode).data := by
  have hmain : disassemble opcode = "??? " ++ toHexUpper opcode := by
    rcases h with ⟨h1, h2, n0, n1, n2, n3, n4, n5, n6, n7, nE⟩ |
      ⟨h1, h2, n9E, nA1⟩ |
      ⟨h1, h2, n07, n0A, n15, n18, n1E, n29, n33, n55, n65⟩
    · unfold disassemble
      repeat rw [if_neg (by omega)]
      rw [if_pos h2]
      dsimp only
      rw [if_neg n0, if_neg n1, if_neg n2, if_neg n3, if_neg n4, if_neg n5,
        if_neg n6, if_neg n7, if_neg nE]
    · unfold disassemble
      repeat rw [if_neg (by omega)]
      rw [if_pos h2]
      dsimp only
      rw [if_neg n9E, if_neg nA1]
    · unfold disassemble
      repeat rw [if_neg (by omega)]
  refine ⟨hmain, ?_⟩
  rw [hmain, String.data_append]
  exact List.suffix_append _ _

/-- C2 witness: the unused `0x8` subcode `8` at opcode `0x8888`. -/
theorem disassemble_unknown_placeholder_witness :
    unknownEncoding 0x8888 ∧
    disassemble 0x8888 = "??? " ++ toHexUpper 0x8888 ∧
    (toHexUpper 0x8888).data <:+ (disassemble 0x8888).data :=
  ⟨by unfold unknownEncoding; decide,
    disassemble_unknown_placeholder 0x8888 (by unfold unknownEncoding; decide)⟩

/-- C3: the `0x8xyE` (SHL) arm of `disassemble` prints the mnemonic
`"HL"`, not `"SHL"`: at opcode `0x812E` the output is `"HL V1 V2 "`,
which does not begin with `"SHL"`, although the comment directly above
the arm and the specification both document the instruction as SHL. -/
theorem disassemble_shl_prints_hl :
    disassemble 0x812E = "HL V1 V2 " ∧
    ¬ "SHL".data <+: (disassemble 0x812E).data := by decide

/-- C4 counterexample: the `0xAnnn` (LD I) family renders its address
operand in decimal, not hexadecimal: `disassemble 0xAABC` is
`"LD I 2748 "` (with `2748` the decimal value of `0xABC`), and the
hexadecimal rendering `"ABC"` occurs nowhere in the output. -/
theorem disassemble_ldi_decimal :
    disassemble 0xAABC = "LD I 2748 " ∧
    ¬ (toHexUpper 0xABC).data <:+: (disassemble 0xAABC).data := by decide

/-- C4 (amended): the `JP 0x1nnn` and `CALL 0x2nnn` families render their
12-bit address operand in hexadecimal (in particular
`disassemble 0x1234 = "JP 0x234"`), while the `LD I 0xAnnn` and
`JP V0 0xBnnn` families render theirs in decimal. -/
theorem disassemble_address_rendering (opcode : Nat) :
    (0x1000 ≤ opcode → opcode ≤ 0x1FFF →
      disassemble opcode = "JP 0x" ++ toHexUpper (opcode &&& 0x0FFF)) ∧
    (0x2000 ≤ opcode → opcode ≤ 0x2FFF →
      disassemble opcode = "CALL 0x" ++ toHexUpper (opcode &&& 0x0FFF)) ∧
    (0xA000 ≤ opcode → opcode ≤ 0xAFFF →
      disassemble opcode = "LD I " ++ Nat.repr (opcode &&& 0x0FFF) ++ " ") ∧
    (0xB000 ≤ opcode → opcode ≤ 0xBFFF →
      disassemble opcode = "JP V0, " ++ Nat.repr (opcode &&& 0x0FFF) ++ " ") ∧
    disassemble 0x1234 = "JP 0x234" := by
  refine ⟨?_, ?_, ?_, ?_, by decide⟩ <;> intro h1 h2 <;> unfold disassemble <;>
    (repeat rw [if_neg (by omega)]) <;> rw [if_pos h2]

/-- C4 witness: the amended theorem applied at opcode `0x1234`. -/
theorem disassemble_address_rendering_witness :
    (0x1000 : Nat) ≤ 0x1234 ∧ (0x1234 : Nat) ≤ 0x1FFF ∧
    disassemble 0x1234 = "JP 0x" ++ toHexUpper (0x1234 &&& 0x0FFF) :=
  ⟨by decide, by decide,
    (disassemble_address_rendering 0x1234).1 (by decide) (by decide)⟩

/-- C5: `disassemble` is deterministic (equal opcode arguments give equal
strings) and stateless (a call in any machine state returns the string
computed from the opcode alone and returns the state unchanged). -/
theorem disassemble_deterministic_stateless :
    (∀ a b : Nat, a = b → disassemble a = disassemble b) ∧
    (∀ (s t : Cpu) (opcode : Nat),
      (disassembleInState s opcode).1 = (disassembleInState t opcode).1) ∧
    (∀ (s : Cpu) (opcode : Nat), (disassembleInState s opcode).2 = s) :=
  ⟨fun _ _ h => h ▸ rfl, fun _ _ _ => rfl, fun _ _ => rfl⟩

/-- C5 witness: determinism applied at opcode `0x1234`. -/
theorem disassemble_deterministic_stateless_witness :
    disassemble 0x1234 = disassemble 0x1234 :=
  disassemble_deterministic_stateless.1 0x1234 0x1234 rfl

/-- C8: for every `x`, `y` in `0`–`F`, `disassemble` of opcode `0x8xy6`
is exactly `"SHR Vx \x7b, Vy\x7d"` with `x` and `y` in decimal and the
optional-operand braces reproduced literally in the output. -/
theorem disassemble_shr_braces (x y : Fin 16) :
    disassemble (0x8006 + 256 * x.val + 16 * y.val) =
      "SHR V" ++ Nat.repr x.val ++ " \x7b, V" ++ Nat.repr y.val ++ "\x7d" := by
  revert x y
  decide

/-- A list of bytes looked up with default `0` only yields values below
`256` when all its members are bytes. -/
theorem getD_lt_256 (l : List Nat) (h : ∀ b ∈ l, b < 256) (j : Nat) :
    l.getD j 0 < 256 := by
  rw [List.getD_eq_getElem?_getD]
  cases hj : l[j]? with
  | none => simp
  | some b => rw [Option.getD_some]; exact h b (List.getElem?_mem hj)

/-- C6: every pair `(x, opcode)` produced by the memory-listing loop of
`update_ui` has its opcode composed big-endian from the two consecutive
memory bytes at `x`: `opcode = memory[x] * 256 + memory[x+1]`, the high
byte first. -/
theorem update_ui_opcode_big_endian (cpu : Cpu)
    (hmem : ∀ b ∈ cpu.memory, b < 256) :
    ∀ p ∈ updateUiOpcodes cpu,
      p.2 = cpu.memory.getD p.1 0 * 256 + cpu.memory.getD (p.1 + 1) 0 := by
  intro p hp
  simp only [updateUiOpcodes, List.mem_map] at hp
  obtain ⟨x, _hx, rfl⟩ := hp
  dsimp only
  have h28 : (2 : Nat) ^ 8 = 256 := by norm_num
  have hb : cpu.memory.getD (x + 1) 0 < 2 ^ 8 := by
    rw [h28]
    exact getD_lt_256 cpu.memory hmem (x + 1)
  rw [Nat.shiftLeft_eq, Nat.mul_comm (cpu.memory.getD x 0) (2 ^ 8),
    ← Nat.mul_add_lt_is_or hb (cpu.memory.getD x 0), h28,
    Nat.mul_comm 256 (cpu.memory.getD x 0)]

/-- Concrete machine state used by the witnesses: the initial value of
the `static mut CPU` in `chip_8_wasm/crate/src/lib.rs`. -/
def sampleCpu : Cpu :=
  { memory := List.replicate 4096 0, pc := 0x200, v := List.replicate 16 0,
    i := 0, stack := List.replicate 16 0, sp := 0,
    display := List.replicate 2048 0, dt := 0,
    keys := List.replicate 16 false }

/-- Small machine state with a nonzero program region, used to witness
the `update_ui` listing at bytes `0x12 0x34 0x56 0x78`. -/
def uiCpu : Cpu :=
  { memory := [0x12, 0x34, 0x56, 0x78], pc := 0, v := List.replicate 16 0,
    i := 0, stack := List.replicate 16 0, sp := 0,
    display := List.replicate 2048 0, dt := 0,
    keys := List.replicate 16 false }

/-- C6 witness: the big-endian composition theorem applied to `uiCpu`. -/
theorem update_ui_opcode_big_endian_witness :
    (∀ b ∈ uiCpu.memory, b < 256) ∧
    ∀ p ∈ updateUiOpcodes uiCpu,
      p.2 = uiCpu.memory.getD p.1 0 * 256 + uiCpu.memory.getD (p.1 + 1) 0 :=
  ⟨by decide, update_ui_opcode_big_endian uiCpu (by decide)⟩

/-- C7: the `emulate_cycle` wrapper returns `true` exactly when the
engine step reports no error; on an error `e` it returns `false` and
logs exactly `e.message` to the console; it logs nothing on success;
and in every case the state it leaves behind is exactly the state the
engine step produced (the wrapper performs no further mutation). -/
theorem emulate_cycle_spec (step : Cpu → Cpu × Option EmulateError)
    (cpu : Cpu) :
    ((emulate_cycle step cpu).1 = true ↔ (step cpu).2 = none) ∧
    ((emulate_cycle step cpu).2.2 = (step cpu).1) ∧
    ((step cpu).2 = none → (emulate_cycle step cpu).2.1 = []) ∧
    (∀ e, (step cpu).2 = some e →
      (emulate_cycle step cpu).1 = false ∧
      (emulate_cycle step cpu).2.1 = [e.message]) := by
  rcases h : step cpu with ⟨cpu', o⟩
  cases o <;> simp [emulate_cycle, h]

/-- Engine step that always fails with message `"boom"`, used to witness
the error path of the `emulate_cycle` wrapper. -/
def failingStep : Cpu → Cpu × Option EmulateError :=
  fun c => (c, some { message := "boom" })

/-- C7 witness: the wrapper theorem applied to an always-failing step. -/
theorem emulate_cycle_spec_witness :
    (failingStep sampleCpu).2 = some { message := "boom" } ∧
    (emulate_cycle failingStep sampleCpu).1 = false ∧
    (emulate_cycle failingStep sampleCpu).2.1 = ["boom"] :=
  ⟨rfl, (emulate_cycle_spec failingStep sampleCpu).2.2.2
    { message := "boom" } rfl⟩

/-- Rust's `as usize` cast is the identity on a `f64` holding a natural
number that fits in `usize`. -/
theorem f64AsUsize_natCast (k : Nat) (hk : k ≤ usizeMax) :
    f64AsUsize (F64.finite k) = k := by
  simp only [f64AsUsize]
  rw [if_neg (not_lt.mpr (Nat.cast_nonneg k))]
  have hfloor : Rat.floor (k : ℚ) = (k : ℤ) := by
    rw [Rat.floor_def']
    simp
  rw [hfloor, Int.toNat_natCast]
  exact Nat.min_eq_left (by omega)

/-- C9: for a key index `k` below 16, `key_down` sets `keys[k]` to
`true` and `key_up` sets it to `false`; both leave every other key flag
unchanged and leave the `memory`, `pc`, `v`, `i`, `stack`, `sp`,
`display` and `dt` fields of the machine state untouched. -/
theorem key_down_up_frame (cpu : Cpu) (k : Nat) (hk : k < 16)
    (hlen : cpu.keys.length = 16) :
    key_down cpu (F64.finite k) =
      some { cpu with keys := cpu.keys.set k true } ∧
    key_up cpu (F64.finite k) =
      some { cpu with keys := cpu.keys.set k false } ∧
    (cpu.keys.set k true).getD k false = true ∧
    (cpu.keys.set k false).getD k false = false ∧
    (∀ j, j ≠ k →
      (cpu.keys.set k true).getD j false = cpu.keys.getD j false ∧
      (cpu.keys.set k false).getD j false = cpu.keys.getD j false) ∧
    (∀ c, key_down cpu (F64.finite k) = some c ∨
          key_up cpu (F64.finite k) = some c →
      c.memory = cpu.memory ∧ c.pc = cpu.pc ∧ c.v = cpu.v ∧ c.i = cpu.i ∧
      c.stack = cpu.stack ∧ c.sp = cpu.sp ∧ c.display = cpu.display ∧
      c.dt = cpu.dt) := by
  have hcast : f64AsUsize (F64.finite k) = k :=
    f64AsUsize_natCast k (by unfold usizeMax; omega)
  have hklen : k < cpu.keys.length := by omega
  have hdown : key_down cpu (F64.finite k) =
      some { cpu with keys := cpu.keys.set k true } := by
    simp only [key_down, hcast]
    rw [if_pos hklen]
  have hup : key_up cpu (F64.finite k) =
      some { cpu with keys := cpu.keys.set k false } := by
    simp only [key_up, hcast]
    rw [if_pos hklen]
  refine ⟨hdown, hup, ?_, ?_, ?_, ?_⟩
  · rw [List.getD_eq_getElem?_getD, List.getElem?_set_self hklen,
      Option.getD_some]
  · rw [List.getD_eq_getElem?_getD, List.getElem?_set_self hklen,
      Option.getD_some]
  · intro j hj
    constructor <;>
      rw [List.getD_eq_getElem?_getD, List.getElem?_set_ne (Ne.symm hj),
        ← List.getD_eq_getElem?_getD]
  · intro c hc
    rcases hc with hc | hc
    · rw [hdown] at hc
      injection hc with hc
      subst hc
      exact ⟨rfl, rfl, rfl, rfl, rfl, rfl, rfl, rfl⟩
    · rw [hup] at hc
      injection hc with hc
      subst hc
      exact ⟨rfl, rfl, rfl, rfl, rfl, rfl, rfl, rfl⟩

/-- C9 witness: the frame theorem applied to `sampleCpu` at key 3. -/
theorem key_down_up_frame_witness :
    (3 : Nat) < 16 ∧ sampleCpu.keys.length = 16 ∧
    key_down sampleCpu (F64.finite ((3 : Nat) : ℚ)) =
      some { sampleCpu with keys := sampleCpu.keys.set 3 true } :=
  ⟨by decide, by decide,
    (key_down_up_frame sampleCpu 3 (by decide) (by decide)).1⟩

/-- C10: on a well-formed state (16 key flags), `key_down`/`key_up`
succeed exactly when the `as usize` cast of the `f64` argument is at
most 15; any argument whose cast is 16 or more makes the indexing panic
(`none`); NaN and negative arguments saturate to index 0 and silently
update key 0. -/
theorem key_index_bounds (cpu : Cpu) (key : F64) (q : ℚ)
    (hlen : cpu.keys.length = 16) (hq : q < 0) :
    ((key_down cpu key).isSome = true ↔ f64AsUsize key ≤ 15) ∧
    ((key_up cpu key).isSome = true ↔ f64AsUsize key ≤ 15) ∧
    (16 ≤ f64AsUsize key →
      key_down cpu key = none ∧ key_up cpu key = none) ∧
    (key_down cpu F64.nan = some { cpu with keys := cpu.keys.set 0 true }) ∧
    (key_up cpu F64.nan = some { cpu with keys := cpu.keys.set 0 false }) ∧
    (key_down cpu (F64.finite q) =
      some { cpu with keys := cpu.keys.set 0 true }) ∧
    (key_up cpu (F64.finite q) =
      some { cpu with keys := cpu.keys.set 0 false }) := by
  have hnan : f64AsUsize F64.nan = 0 := rfl
  have hneg : f64AsUsize (F64.finite q) = 0 := by
    simp only [f64AsUsize]
    rw [if_pos hq]
  have h0 : (0 : Nat) < cpu.keys.length := by omega
  refine ⟨?_, ?_, ?_, ?_, ?_, ?_, ?_⟩
  · simp only [key_down]
    by_cases h : f64AsUsize key < cpu.keys.length
    · rw [if_pos h]; simp; omega
    · rw [if_neg h]; simp; omega
  · simp only [key_up]
    by_cases h : f64AsUsize key < cpu.keys.length
    · rw [if_pos h]; simp; omega
    · rw [if_neg h]; simp; omega
  · intro h16
    constructor
    · simp only [key_down]; rw [if_neg (by omega)]
    · simp only [key_up]; rw [if_neg (by omega)]
  · simp only [key_down, hnan]; rw [if_pos h0]
  · simp only [key_up, hnan]; rw [if_pos h0]
  · simp only [key_down, hneg]; rw [if_pos h0]
  · simp only [key_up, hneg]; rw [if_pos h0]

/-- C10 witness: the bounds theorem applied to `sampleCpu` with the
out-of-range argument `+∞` (whose cast is `usize::MAX ≥ 16`) and the
negative argument `-1`. -/
theorem key_index_bounds_witness :
    sampleCpu.keys.length = 16 ∧ ((-1 : ℚ) < 0) ∧
    (16 ≤ f64AsUsize F64.posInf) ∧
    (key_down sampleCpu F64.posInf = none ∧
     key_up sampleCpu F64.posInf = none) :=
  ⟨by decide, by decide, by decide,
    (key_index_bounds sampleCpu F64.posInf (-1) (by decide)
      (by decide)).2.2.1 (by decide)⟩

end Chip8
